import Mathlib

/-!
Shallow embedding of the soundsync core registries:
`src/audio/audio_sources_sinks_manager.ts` (audio source/sink registry) and
`src/communication/peers_manager.ts` (peer registry and signaling exchange).

JavaScript conventions that matter here are embedded explicitly:
optional string fields are `Option String` and the truthiness tests the
code performs (`if (descriptor.uuid && ...)`) treat both the absent value
and the empty string as falsy; lodash lookups (`_.find(xs, {uuid})`)
become `List.find?` with strict field equality; object mutation of a found
list element becomes replacement of the first matching element.
-/

namespace SoundSync

/-- Truthiness of an optional string field, as JavaScript evaluates it in a
condition: `undefined` and `""` are falsy, every other string is truthy. -/
def truthy : Option String → Bool
  | none => false
  | some s => s != ""

/-- Replace the first element satisfying `p` by its image under `f`, leaving
every other element untouched.  This is the effect of lodash `_.find`
followed by an in-place mutation of the found object. -/
def updateFirst (p : α → Bool) (f : α → α) : List α → List α
  | [] => []
  | x :: xs => if p x then f x :: xs else x :: updateFirst p f xs

/-! ### Audio entity registry (`audio_sources_sinks_manager.ts`) -/

/-- Descriptor for an audio source, the plain-data input of
`AudioSourcesSinksManager.addSource`. -/
structure SourceDescriptor where
  type : String
  name : String
  uuid : Option String := none
  peerUuid : Option String := none
deriving DecidableEq

/-- Descriptor for an audio sink, the plain-data input of
`AudioSourcesSinksManager.addSink`. -/
structure SinkDescriptor where
  type : String
  name : String
  deviceName : Option String := none
  uuid : Option String := none
  peerUuid : Option String := none
deriving DecidableEq

/-- Concrete class chosen by the `addSource` type dispatch
(`LibrespotSource`, `NullSource`, `RemoteSource`). -/
inductive SourceCls
  | librespot
  | nullSource
  | remote
deriving DecidableEq

/-- Concrete class chosen by the `addSink` type dispatch
(`RtAudioSink`, `NullSink`, `RemoteSink`).  The `instanceof RtAudioSink`
test on line 110 of the manager is membership of `SinkCls.rtaudio`. -/
inductive SinkCls
  | rtaudio
  | nullSink
  | remote
deriving DecidableEq

/-- Local-vs-remote classification used by `addSource` / `addSink`:
`!descriptor.peerUuid || descriptor.peerUuid === getLocalPeer().uuid`. -/
def isLocalPeerUuid (localUuid : String) (peerUuid : Option String) : Bool :=
  !(truthy peerUuid) || peerUuid == some localUuid

/-- An audio source entity.  Modelled from the spec: the concrete source
classes (`LibrespotSource` etc.) are not under src/; per spec §3 an entity
carries the descriptor's fields plus the derived flag `local` (true iff
`peerUuid` is absent or equals the local peer uuid), stored here as
`isLocal` because `local` is reserved in Lean. -/
structure AudioSource where
  cls : SourceCls
  type : String
  name : String
  uuid : Option String
  peerUuid : Option String
  isLocal : Bool
deriving DecidableEq

/-- An audio sink entity; see `AudioSource`. -/
structure AudioSink where
  cls : SinkCls
  type : String
  name : String
  deviceName : Option String
  uuid : Option String
  peerUuid : Option String
  isLocal : Bool
deriving DecidableEq

/-- Modelled from the spec: construction of a concrete source entity (the
source classes are not under src/).  The entity takes the descriptor's
fields; `isLocal` is the derived flag of spec §3. -/
def mkSource (localUuid : String) (cls : SourceCls) (d : SourceDescriptor) : AudioSource :=
  ⟨cls, d.type, d.name, d.uuid, d.peerUuid, isLocalPeerUuid localUuid d.peerUuid⟩

/-- Modelled from the spec: construction of a concrete sink entity (the
sink classes are not under src/). -/
def mkSink (localUuid : String) (cls : SinkCls) (d : SinkDescriptor) : AudioSink :=
  ⟨cls, d.type, d.name, d.deviceName, d.uuid, d.peerUuid, isLocalPeerUuid localUuid d.peerUuid⟩

/-- Modelled from the spec: `AudioSource.updateInfo` is not under src/.
Per spec §3/§4.3 an add for an existing entity "updates the existing entity
in place" so that it "reflects the latest fields"; ownership (`peerUuid`,
hence `isLocal`) and the constructor class are not transferred, and the
uuid is taken from the descriptor only when the descriptor carries a
truthy one. -/
def updateInfoSource (s : AudioSource) (d : SourceDescriptor) : AudioSource :=
  { s with
      name := d.name
      uuid := if truthy d.uuid then d.uuid else s.uuid }

/-- Modelled from the spec: `AudioSink.updateInfo`; see `updateInfoSource`. -/
def updateInfoSink (s : AudioSink) (d : SinkDescriptor) : AudioSink :=
  { s with
      name := d.name
      deviceName := if d.deviceName.isSome then d.deviceName else s.deviceName
      uuid := if truthy d.uuid then d.uuid else s.uuid }

/-- State of an `AudioSourcesSinksManager`: the two entity collections. -/
structure AudioManager where
  sources : List AudioSource
  sinks : List AudioSink
deriving DecidableEq

/-- The manager before any `addSource` / `addSink` call. -/
def emptyManager : AudioManager := ⟨[], []⟩

/-- Result of one `addSource` call: the new manager state, the
`updateConfigArrayItem('sources', …)` invocations triggered through the
constructor-registered `newLocalSource` / `sourceUpdate` listeners (each
guarded by `source.local`, lines 26–43), and the error thrown, if any. -/
structure SourceAddOut where
  mgr : AudioManager
  persists : List AudioSource
  err : Option String
deriving DecidableEq

/-- Result of one `addSink` call; see `SourceAddOut`. -/
structure SinkAddOut where
  mgr : AudioManager
  persists : List AudioSink
  err : Option String
deriving DecidableEq

/-- Embedding of `AudioSourcesSinksManager.addSource` (lines 62–88).  The guard
`if (sourceDescriptor.uuid && this.getSourceByUuid(sourceDescriptor.uuid))`
is the outer match; the update branch mutates the found entity in place;
the creation path classifies local-vs-remote and dispatches on `type`,
throwing on an unknown tag before any mutation. -/
def addSource (localUuid : String) (m : AudioManager) (d : SourceDescriptor) : SourceAddOut :=
  match (if truthy d.uuid then m.sources.find? (fun s => s.uuid == d.uuid) else none) with
  | some s =>
    let s2 := updateInfoSource s d
    { mgr := { m with
        sources := updateFirst (fun t => t.uuid == d.uuid) (fun t => updateInfoSource t d) m.sources }
      persists := if s2.isLocal then [s2] else []
      err := none }
  | none =>
    if !(isLocalPeerUuid localUuid d.peerUuid) then
      let s := mkSource localUuid SourceCls.remote d
      { mgr := { m with sources := m.sources ++ [s] }
        persists := if s.isLocal then [s] else []
        err := none }
    else if d.type == "librespot" then
      let s := mkSource localUuid SourceCls.librespot d
      { mgr := { m with sources := m.sources ++ [s] }
        persists := if s.isLocal then [s] else []
        err := none }
    else if d.type == "null" then
      let s := mkSource localUuid SourceCls.nullSource d
      { mgr := { m with sources := m.sources ++ [s] }
        persists := if s.isLocal then [s] else []
        err := none }
    else
      { mgr := m, persists := [], err := some ("Unknown source type " ++ d.type) }

/-- Creation path of `addSink` (lines 117–136): classification, type
dispatch, push, `newLocalSink` emission. -/
def addSinkCreate (localUuid : String) (m : AudioManager) (d : SinkDescriptor) : SinkAddOut :=
  if !(isLocalPeerUuid localUuid d.peerUuid) then
    let s := mkSink localUuid SinkCls.remote d
    { mgr := { m with sinks := m.sinks ++ [s] }
      persists := if s.isLocal then [s] else []
      err := none }
  else if d.type == "rtaudio" then
    let s := mkSink localUuid SinkCls.rtaudio d
    { mgr := { m with sinks := m.sinks ++ [s] }
      persists := if s.isLocal then [s] else []
      err := none }
  else if d.type == "null" then
    let s := mkSink localUuid SinkCls.nullSink d
    { mgr := { m with sinks := m.sinks ++ [s] }
      persists := if s.isLocal then [s] else []
      err := none }
  else
    { mgr := m, persists := [], err := some ("Unknown sink type " ++ d.type) }

/-- Embedding of `AudioSourcesSinksManager.addSink` (lines 101–137).  First the uuid
lookup (guarded by uuid truthiness), then — only for descriptors with
`type === 'rtaudio'` and `peerUuid === getLocalPeer().uuid` — the
device-name reconciliation against existing `RtAudioSink`s (line 110),
and otherwise the creation path. -/
def addSink (localUuid : String) (m : AudioManager) (d : SinkDescriptor) : SinkAddOut :=
  match (if truthy d.uuid then m.sinks.find? (fun s => s.uuid == d.uuid) else none) with
  | some s =>
    let s2 := updateInfoSink s d
    { mgr := { m with
        sinks := updateFirst (fun t => t.uuid == d.uuid) (fun t => updateInfoSink t d) m.sinks }
      persists := if s2.isLocal then [s2] else []
      err := none }
  | none =>
    if d.type == "rtaudio" && d.peerUuid == some localUuid then
      match m.sinks.find? (fun t => t.cls == SinkCls.rtaudio && t.deviceName == d.deviceName) with
      | some s =>
        let s2 := updateInfoSink s d
        { mgr := { m with
            sinks := updateFirst
              (fun t => t.cls == SinkCls.rtaudio && t.deviceName == d.deviceName)
              (fun t => updateInfoSink t d) m.sinks }
          persists := if s2.isLocal then [s2] else []
          err := none }
      | none => addSinkCreate localUuid m d
    else addSinkCreate localUuid m d

/-- Embedding of `AudioSourcesSinksManager.removeSource` (lines 90–99): unknown uuid is a
logged no-op, a known uuid is filtered out of the collection. -/
def removeSource (m : AudioManager) (uuid : String) : AudioManager :=
  match m.sources.find? (fun s => s.uuid == some uuid) with
  | none => m
  | some _ => { m with sources := m.sources.filter (fun s => !(s.uuid == some uuid)) }

/-- Embedding of `AudioSourcesSinksManager.removeSink` (lines 139–148). -/
def removeSink (m : AudioManager) (uuid : String) : AudioManager :=
  match m.sinks.find? (fun s => s.uuid == some uuid) with
  | none => m
  | some _ => { m with sinks := m.sinks.filter (fun s => !(s.uuid == some uuid)) }

/-- One call of a finite `addSource` / `addSink` call sequence. -/
inductive AddCall
  | src (d : SourceDescriptor)
  | snk (d : SinkDescriptor)
deriving DecidableEq

/-- Manager state after one call; a thrown error leaves the state as the
embedding returns it (unchanged) and the sequence continues in the caller. -/
def stepCall (localUuid : String) (m : AudioManager) : AddCall → AudioManager
  | .src d => (addSource localUuid m d).mgr
  | .snk d => (addSink localUuid m d).mgr

/-- Replay a finite sequence of `addSource` / `addSink` calls starting from
the empty manager. -/
def runCalls (localUuid : String) (calls : List AddCall) : AudioManager :=
  calls.foldl (stepCall localUuid) emptyManager

/-- Uuid discipline of a collection: no two elements carry the same truthy
(present, non-empty) uuid.  Bool-valued so that concrete instances

evaluate by `decide`. -/
def uuidOk (g : α → Option String) : List α → Bool
  | [] => true
  | x :: xs => (!(truthy (g x)) || xs.all (fun y => !(g y == g x))) && uuidOk g xs

/-! ### Peer registry and signaling exchange (`peers_manager.ts`) -/

/-- Concrete class of a registered Peer object.  Modelled from the spec:
`local_peer.ts` and `wrtc_peer.ts` are not under src/; the manager
distinguishes the process's own Peer from `WebrtcPeer` instances with an
`instanceof WebrtcPeer` test (line 46), and every peer the manager itself
creates is a `WebrtcPeer`. -/
inductive PeerKind
  | localPeer
  | webrtc
deriving DecidableEq

/-- Peer connection state, spec §3: Connecting, Connected, Disconnected. -/
inductive PeerState
  | connecting
  | connected
  | disconnected
deriving DecidableEq

/-- A Peer entry of the registry `peers: {[uuid: string]: Peer}`. -/
structure Peer where
  uuid : String
  name : String
  host : String
  instanceUuid : String
  kind : PeerKind
  state : PeerState
deriving DecidableEq

/-- The registry object `this.peers`.  A JavaScript object keyed by uuid is
embedded as a list of Peers whose `uuid` fields play the role of the keys;
`peersWF` states the key discipline the object structure enforces. -/
def lookupPeer (reg : List Peer) (u : String) : Option Peer :=
  reg.find? (fun p => p.uuid == u)

/-- Key-uniqueness of the embedded registry: a JavaScript object holds at
most one value per key. -/
def peersWF : List Peer → Bool
  | [] => true
  | p :: ps => ps.all (fun q => !(q.uuid == p.uuid)) && peersWF ps

/-- Whether the registry has an entry under key `u`. -/
def hasUuid (reg : List Peer) (u : String) : Bool :=
  reg.any (fun p => p.uuid == u)

/-- Assignment `this.peers[uuid] = peer` for the key `peer.uuid`: replace
the existing entry under that key, or append a new one. -/
def insertPeer (reg : List Peer) (p : Peer) : List Peer :=
  if reg.any (fun q => q.uuid == p.uuid) then
    reg.map (fun q => if q.uuid == p.uuid then p else q)
  else reg ++ [p]

/-- Registry immediately after `PeersManager` construction (line 27):
the local peer stored under its own uuid. -/
def freshRegistry (lp : Peer) : List Peer := [lp]

/-- Body of the `/connect_webrtc_peer` signaling request (lines 38–40),
with `ip` standing for `ctx.request.ip` and `description` the opaque
transport handshake payload. -/
structure ConnectRequest where
  name : String
  uuid : String
  description : String
  version : String
  instanceUuid : String
  ip : String
deriving DecidableEq

/-- Successful signaling response body (lines 60–66): the local peer's
identity plus the transport's answer description. -/
structure ConnectResponse where
  status : String
  description : String
  uuid : String
  name : String
  instanceUuid : String
deriving DecidableEq

/-- A failed signaling request: HTTP status plus message
(`ctx.throw(message, 400)`, or a transport failure surfacing from the
awaited handshake). -/
structure HttpFailure where
  status : Nat
  message : String
deriving DecidableEq

/-- Observable side effects of handling one signaling request, in the
order the handler performs them. -/
inductive PeerAction
  | disconnectPeer (p : Peer)
  | installPeer (p : Peer)
deriving DecidableEq

/-- Whether an action is a `disconnect` call on an existing peer. -/
def isDisconnect : PeerAction → Bool
  | .disconnectPeer _ => true
  | .installPeer _ => false

/-- The version-mismatch rejection message of line 42, built exactly as the
template literal builds it. -/
def versionMismatchMsg (own other : String) : String :=
  "Different version of Soundsync, please check each client is on the same version.\nOwn version: "
    ++ own ++ "\nOther peer version: " ++ other

/-- Peer object constructed for an inbound connection request
(lines 49–54).  Modelled from the spec for the parts outside src/: a fresh
`WebrtcPeer` starts Connecting (spec §4.1/§8.6). -/
def inboundPeer (rq : ConnectRequest) : Peer :=
  ⟨rq.uuid, rq.name, rq.ip, rq.instanceUuid, PeerKind.webrtc, PeerState.connecting⟩

/-- Result of handling one `/connect_webrtc_peer` request: the registry
afterwards, the trace of disconnect/install effects in order, and the HTTP
outcome. -/
structure ConnectOut where
  reg : List Peer
  trace : List PeerAction
  result : Except HttpFailure ConnectResponse

/-- Handler of `/connect_webrtc_peer` (lines 37–67).  The version check
runs before anything touches the registry; a same-uuid `WebrtcPeer` with a
different `instanceUuid` is disconnected; the new peer is installed under
its uuid *before* the handshake is awaited, so a transport failure
(`transport` returning an error, modelled from the spec since
`wrtc_peer.ts` is not under src/) rejects the request but leaves the new
peer installed. -/
def connectWebrtcPeer (lp : Peer) (localVersion : String)
    (transport : String → Except String String)
    (reg : List Peer) (rq : ConnectRequest) : ConnectOut :=
  if rq.version ≠ localVersion then
    ⟨reg, [], .error ⟨400, versionMismatchMsg localVersion rq.version⟩⟩
  else
    let evict : List PeerAction :=
      match lookupPeer reg rq.uuid with
      | some p =>
        if p.kind = PeerKind.webrtc ∧ p.instanceUuid ≠ rq.instanceUuid then
          [.disconnectPeer p]
        else []
      | none => []
    let peer := inboundPeer rq
    let reg2 := insertPeer reg peer
    match transport rq.description with
    | .ok desc =>
      ⟨reg2, evict ++ [.installPeer peer],
        .ok ⟨"ok", desc, lp.uuid, lp.name, lp.instanceUuid⟩⟩
    | .error e => ⟨reg2, evict ++ [.installPeer peer], .error ⟨500, e⟩⟩

/-- Embedding of `PeersManager.joinPeerWithHttpApi` (lines 84–93): installs a
`WebrtcPeer` under the given uuid, or under a synthetic placeholder key
when no uuid is supplied (`uuid || placeholder`, JavaScript truthiness). -/
def joinPeerWithHttpApi (reg : List Peer) (host : String) (uuid : Option String) : List Peer :=
  let key := if truthy uuid then uuid.getD "" else "placeholderForHttpApiJoin_" ++ host
  insertPeer reg ⟨key, "remote", host, "placeholder", PeerKind.webrtc, PeerState.connecting⟩

/-- Embedding of `PeersManager.getPeerByUuid` (lines 112–126): lazy lookup that creates
and installs a placeholder `WebrtcPeer` for an unknown uuid (spec §4.1:
a Disconnected placeholder) and always returns a peer. -/
def getPeerByUuid (reg : List Peer) (u : String) : List Peer × Peer :=
  match lookupPeer reg u with
  | some p => (reg, p)
  | none =>
    let p : Peer := ⟨u, "remote", "unknown", "placeholder", PeerKind.webrtc, PeerState.disconnected⟩
    (insertPeer reg p, p)

/-- Embedding of `PeersManager.onControllerMessage` (line 128); it registers a message
handler; it performs no registry mutation, which the embedding records by
returning the registry unchanged. -/
def onControllerMessage (reg : List Peer) : List Peer := reg

/-- A controller message envelope; `broadcast` never inspects it. -/
structure ControllerMessage where
  type : String
deriving DecidableEq

/-- The per-peer record of one broadcast fan-out: whether
`peer.sendControllerMessage` was invoked for the peer, and whether the
resulting promise fulfilled (`ok = true` covers the excluded-peer
`Promise.resolve(false)` as well). -/
structure SendRecord where
  uuid : String
  attempted : Bool
  ok : Bool
deriving DecidableEq

/-- Outcome of `PeersManager.broadcast`: the registry (which the method
never mutates), the per-peer records, and whether the awaited
`Promise.all` fulfilled. -/
structure BroadcastOut where
  reg : List Peer
  records : List SendRecord
  allOk : Bool
deriving DecidableEq

/-- Embedding of `PeersManager.broadcast` (lines 102–110).  JavaScript semantics made
explicit: `_.map(this.peers, sendToPeer)` synchronously invokes
`sendToPeer` on every peer, so the full array of promises exists — every
non-excluded peer's send is already initiated — before `Promise.all` is
awaited; a rejection makes the aggregate reject but neither cancels nor
prevents the other, already running, sends, each of which settles with its
own outcome.  The outcome of `sendControllerMessage` per peer is the
oracle `send` (modelled from the spec: `peer.ts` is not under src/ and
spec §7 has transport failures surface to the caller as rejections). -/
def broadcast (send : String → Bool) (reg : List Peer) (message : ControllerMessage)
    (ignorePeerByUuid : List String) : BroadcastOut :=
  let records := reg.map (fun p =>
    if ignorePeerByUuid.contains p.uuid then
      { uuid := p.uuid, attempted := false, ok := true }
    else
      { uuid := p.uuid, attempted := true, ok := send p.uuid })
  ⟨reg, records, records.all (fun r => r.ok)⟩

/-! ### Toolkit lemmas about `updateFirst`, `uuidOk` and the registry list -/

theorem mem_updateFirst {p : α → Bool} {f : α → α} :
    ∀ {l : List α} {y : α}, y ∈ updateFirst p f l →
      y ∈ l ∨ ∃ x, x ∈ l ∧ p x = true ∧ y = f x := by
  intro l
  induction l with
  | nil => intro y hy; simp [updateFirst] at hy
  | cons x xs ih =>
    intro y hy
    by_cases hp : p x = true
    · simp only [updateFirst, if_pos hp, List.mem_cons] at hy
      rcases hy with hy | hy
      · exact Or.inr ⟨x, List.mem_cons_self x xs, hp, hy⟩
      · exact Or.inl (List.mem_cons_of_mem _ hy)
    · simp only [updateFirst, if_neg hp, List.mem_cons] at hy
      rcases hy with hy | hy
      · exact Or.inl (hy ▸ List.mem_cons_self x xs)
      · rcases ih hy with h | ⟨z, hz, hpz, hyz⟩
        · exact Or.inl (List.mem_cons_of_mem _ h)
        · exact Or.inr ⟨z, List.mem_cons_of_mem _ hz, hpz, hyz⟩

theorem length_updateFirst {p : α → Bool} {f : α → α} :
    ∀ (l : List α), (updateFirst p f l).length = l.length := by
  intro l
  induction l with
  | nil => rfl
  | cons x xs ih =>
    by_cases hp : p x = true
    · simp [updateFirst, if_pos hp]
    · simp [updateFirst, if_neg hp, ih]

theorem uuidOk_cons {g : α → Option String} {x : α} {xs : List α} :
    uuidOk g (x :: xs) =
      ((!(truthy (g x)) || xs.all (fun y => !(g y == g x))) && uuidOk g xs) := rfl

theorem uuidOk_updateFirst {g : α → Option String} {p : α → Bool} {f : α → α} :
    ∀ {l : List α}, uuidOk g l = true →
      (∀ x, x ∈ l → p x = true →
        g (f x) = g x ∨ ∀ z, z ∈ l → ¬(g z = g (f x))) →
      uuidOk g (updateFirst p f l) = true := by
  intro l
  induction l with
  | nil => intro _ _; rfl
  | cons x xs ih =>
    intro hok hf
    rw [uuidOk_cons, Bool.and_eq_true] at hok
    obtain ⟨h1, h2⟩ := hok
    by_cases hp : p x = true
    · simp only [updateFirst, if_pos hp, uuidOk_cons, Bool.and_eq_true]
      refine ⟨?_, h2⟩
      rcases hf x (List.mem_cons_self x xs) hp with hsame | hfresh
      · rw [hsame]; exact h1
      · rw [Bool.or_eq_true]
        refine Or.inr ?_
        rw [List.all_eq_true]
        intro y hy
        have := hfresh y (List.mem_cons_of_mem _ hy)
        simp [this]
    · simp only [updateFirst, if_neg hp, uuidOk_cons, Bool.and_eq_true]
      constructor
      · rw [Bool.or_eq_true] at h1 ⊢
        rcases h1 with h1 | h1
        · exact Or.inl h1
        · refine Or.inr ?_
          rw [List.all_eq_true] at h1 ⊢
          intro y hy
          rcases mem_updateFirst hy with hmem | ⟨z, hz, hpz, rfl⟩
          · exact h1 y hmem
          · rcases hf z (List.mem_cons_of_mem _ hz) hpz with hsame | hfresh
            · rw [hsame]; exact h1 z hz
            · have := hfresh x (List.mem_cons_self x xs)
              simp only [Bool.not_eq_true', beq_eq_false_iff_ne, ne_eq]
              intro hcontra
              exact this hcontra.symm
      · refine ih h2 ?_
        intro z hz hpz
        rcases hf z (List.mem_cons_of_mem _ hz) hpz with hsame | hfresh
        · exact Or.inl hsame
        · exact Or.inr fun w hw => hfresh w (List.mem_cons_of_mem _ hw)

theorem uuidOk_append_single {g : α → Option String} {e : α} :
    ∀ {l : List α}, uuidOk g l = true →
      (truthy (g e) = false ∨ ∀ x, x ∈ l → ¬(g x = g e)) →
      uuidOk g (l ++ [e]) = true := by
  intro l
  induction l with
  | nil =>
    intro _ _
    simp [uuidOk]
  | cons x xs ih =>
    intro hok he
    rw [uuidOk_cons, Bool.and_eq_true] at hok
    obtain ⟨h1, h2⟩ := hok
    rw [List.cons_append, uuidOk_cons, Bool.and_eq_true]
    constructor
    · by_cases htx : truthy (g x) = true
      · rw [Bool.or_eq_true]
        refine Or.inr ?_
        have h1' : xs.all (fun y => !(g y == g x)) = true := by
          rw [Bool.or_eq_true] at h1
          rcases h1 with h1 | h1
          · rw [Bool.not_eq_true'] at h1
            rw [h1] at htx
            exact absurd htx (by simp)
          · exact h1
        rw [List.all_eq_true] at h1' ⊢
        intro y hy
        rw [List.mem_append] at hy
        rcases hy with hy | hy
        · exact h1' y hy
        · rw [List.mem_singleton] at hy
          subst hy
          simp only [Bool.not_eq_true', beq_eq_false_iff_ne, ne_eq]
          intro hcontra
          rcases he with he | he
          · rw [hcontra] at he
            rw [he] at htx
            exact Bool.false_ne_true htx
          · exact he x (List.mem_cons_self x xs) hcontra.symm
      · rw [Bool.or_eq_true]
        exact Or.inl (by simp [Bool.not_eq_true] at htx ⊢; exact htx)
    · refine ih h2 ?_
      rcases he with he | he
      · exact Or.inl he
      · exact Or.inr fun z hz => he z (List.mem_cons_of_mem _ hz)

theorem find?_cons_true (p : α → Bool) (x : α) (xs : List α) (h : p x = true) :
    List.find? p (x :: xs) = some x :=
  List.find?_cons_of_pos xs h

theorem find?_cons_false (p : α → Bool) (x : α) (xs : List α) (h : ¬(p x = true)) :
    List.find? p (x :: xs) = List.find? p xs :=
  List.find?_cons_of_neg xs (by simpa using h)

theorem filter_eq_nil_of_all_not {p : α → Bool} {l : List α}
    (h : ∀ x, x ∈ l → p x = false) : l.filter p = [] := by
  induction l with
  | nil => rfl
  | cons x xs ih =>
    rw [List.filter_cons, if_neg (by simp [h x (List.mem_cons_self x xs)])]
    exact ih fun z hz => h z (List.mem_cons_of_mem _ hz)

theorem filter_updateFirst_single {g : α → Option String} {u : String} {f : α → α}
    (hu : u ≠ "")
    (hkeep : ∀ x, (g x == some u) = true → g (f x) = some u) :
    ∀ {l : List α} {s : α}, uuidOk g l = true →
      l.find? (fun x => g x == some u) = some s →
      (updateFirst (fun x => g x == some u) f l).filter (fun x => g x == some u) = [f s] := by
  intro l
  induction l with
  | nil => intro s _ hfind; simp at hfind
  | cons x xs ih =>
    intro s hok hfind
    rw [uuidOk_cons, Bool.and_eq_true] at hok
    obtain ⟨h1, h2⟩ := hok
    by_cases hx : (g x == some u) = true
    · rw [find?_cons_true (fun t => g t == some u) x xs hx, Option.some_inj] at hfind
      subst hfind
      simp only [updateFirst, if_pos hx]
      rw [List.filter_cons, if_pos (by rw [hkeep x hx]; simp)]
      have hgx : g x = some u := by simpa using hx
      have htr : truthy (g x) = true := by simp [hgx, truthy, hu]
      rw [Bool.or_eq_true] at h1
      rcases h1 with h1 | h1
      · rw [Bool.not_eq_true'] at h1
        rw [h1] at htr
        exact absurd htr (by simp)
      · rw [List.all_eq_true] at h1
        rw [filter_eq_nil_of_all_not ?_]
        intro z hz
        have := h1 z hz
        rw [hgx] at this
        simpa using this
    · rw [find?_cons_false (fun t => g t == some u) x xs hx] at hfind
      simp only [updateFirst, if_neg hx]
      rw [List.filter_cons, if_neg (by simp [hx])]
      exact ih h2 hfind

theorem any_of_lookup {reg : List Peer} {u : String} {p : Peer}
    (h : lookupPeer reg u = some p) : reg.any (fun q => q.uuid == u) = true := by
  unfold lookupPeer at h
  have hmem := List.mem_of_find?_eq_some h
  have hp := List.find?_some h
  rw [List.any_eq_true]
  exact ⟨p, hmem, by simpa using hp⟩

theorem hasUuid_insertPeer {reg : List Peer} {u : String} (p : Peer)
    (h : hasUuid reg u = true) : hasUuid (insertPeer reg p) u = true := by
  unfold insertPeer
  by_cases hmem : reg.any (fun q => q.uuid == p.uuid) = true
  · rw [if_pos hmem]
    unfold hasUuid at h ⊢
    rw [List.any_eq_true] at h ⊢
    obtain ⟨q, hq, hqu⟩ := h
    refine ⟨if q.uuid == p.uuid then p else q, List.mem_map_of_mem _ hq, ?_⟩
    by_cases hrep : (q.uuid == p.uuid) = true
    · rw [if_pos hrep]
      have : p.uuid = q.uuid := by
        have := (beq_iff_eq).1 hrep
        exact this.symm
      rw [show p.uuid = q.uuid from this]
      exact hqu
    · rw [if_neg hrep]
      exact hqu
  · rw [if_neg hmem]
    unfold hasUuid at h ⊢
    rw [List.any_append, h, Bool.true_or]

theorem mapReplace_filter_self {p : Peer} :
    ∀ {reg : List Peer}, peersWF reg = true →
      reg.any (fun q => q.uuid == p.uuid) = true →
      (reg.map (fun q => if q.uuid == p.uuid then p else q)).filter
        (fun q => q.uuid == p.uuid) = [p] := by
  intro reg
  induction reg with
  | nil => intro _ hmem; simp at hmem
  | cons x xs ih =>
    intro hwf hmem
    have hwf' : (xs.all (fun q => !(q.uuid == x.uuid)) && peersWF xs) = true := hwf
    rw [Bool.and_eq_true] at hwf'
    obtain ⟨hall, hwf2⟩ := hwf'
    by_cases hx : (x.uuid == p.uuid) = true
    · rw [List.map_cons, if_pos hx, List.filter_cons, if_pos (by simp)]
      have hnil : (xs.map (fun q => if q.uuid == p.uuid then p else q)).filter
          (fun q => q.uuid == p.uuid) = [] := by
        refine filter_eq_nil_of_all_not ?_
        intro y hy
        rw [List.mem_map] at hy
        obtain ⟨q, hq, rfl⟩ := hy
        rw [List.all_eq_true] at hall
        have hqx : ¬(q.uuid = x.uuid) := by
          have := hall q hq
          simpa using this
        have hqp : ¬(q.uuid = p.uuid) := by
          have hxp : x.uuid = p.uuid := (beq_iff_eq).1 hx
          rw [← hxp]
          exact hqx
        rw [if_neg (by simpa using hqp)]
        simpa using hqp
      rw [hnil]
    · rw [List.map_cons, if_neg hx, List.filter_cons, if_neg (by simpa using hx)]
      have hmem' : xs.any (fun q => q.uuid == p.uuid) = true := by
        rw [List.any_cons, Bool.or_eq_true] at hmem
        rcases hmem with h | h
        · exact absurd h hx
        · exact h
      exact ih hwf2 hmem'

theorem insertPeer_filter_self {reg : List Peer} {p : Peer}
    (hwf : peersWF reg = true)
    (hmem : reg.any (fun q => q.uuid == p.uuid) = true) :
    (insertPeer reg p).filter (fun q => q.uuid == p.uuid) = [p] := by
  unfold insertPeer
  rw [if_pos hmem]
  exact mapReplace_filter_self hwf hmem

theorem all_isLocal_guard_source {e : AudioSource} :
    (if e.isLocal then [e] else []).all (fun s => s.isLocal) = true := by
  by_cases h : e.isLocal <;> simp [h]

theorem all_isLocal_guard_sink {e : AudioSink} :
    (if e.isLocal then [e] else []).all (fun s => s.isLocal) = true := by
  by_cases h : e.isLocal <;> simp [h]

theorem addSinkCreate_persists_local (localUuid : String) (m : AudioManager)
    (d : SinkDescriptor) :
    (addSinkCreate localUuid m d).persists.all (fun s => s.isLocal) = true := by
  unfold addSinkCreate
  split
  · exact all_isLocal_guard_sink
  · split
    · exact all_isLocal_guard_sink
    · split
      · exact all_isLocal_guard_sink
      · rfl

theorem truthy_some {u : String} (h : u ≠ "") : truthy (some u) = true := by
  simp [truthy, h]

theorem uuidOk_sources_append {localUuid : String} {m : AudioManager} {d : SourceDescriptor}
    (hok : uuidOk (fun s : AudioSource => s.uuid) m.sources = true)
    (hnone : (if truthy d.uuid then m.sources.find? (fun s => s.uuid == d.uuid) else none) = none)
    (cls : SourceCls) :
    uuidOk (fun s : AudioSource => s.uuid)
      (m.sources ++ [mkSource localUuid cls d]) = true := by
  refine uuidOk_append_single hok ?_
  by_cases htr : truthy d.uuid = true
  · rw [if_pos htr] at hnone
    refine Or.inr ?_
    intro x hx
    have := List.find?_eq_none.1 hnone x hx
    simpa [mkSource] using this
  · refine Or.inl ?_
    simp only [mkSource]
    simpa using htr

theorem uuidOk_sinks_append {localUuid : String} {m : AudioManager} {d : SinkDescriptor}
    (hok : uuidOk (fun s : AudioSink => s.uuid) m.sinks = true)
    (hnone : (if truthy d.uuid then m.sinks.find? (fun s => s.uuid == d.uuid) else none) = none)
    (cls : SinkCls) :
    uuidOk (fun s : AudioSink => s.uuid)
      (m.sinks ++ [mkSink localUuid cls d]) = true := by
  refine uuidOk_append_single hok ?_
  by_cases htr : truthy d.uuid = true
  · rw [if_pos htr] at hnone
    refine Or.inr ?_
    intro x hx
    have := List.find?_eq_none.1 hnone x hx
    simpa [mkSink] using this
  · refine Or.inl ?_
    simp only [mkSink]
    simpa using htr

theorem addSource_inv (localUuid : String) (m : AudioManager) (d : SourceDescriptor)
    (hok : uuidOk (fun s : AudioSource => s.uuid) m.sources = true) :
    uuidOk (fun s : AudioSource => s.uuid) (addSource localUuid m d).mgr.sources = true ∧
    (addSource localUuid m d).mgr.sinks = m.sinks := by
  unfold addSource
  split
  · next s hcase =>
    refine ⟨?_, rfl⟩
    refine uuidOk_updateFirst hok ?_
    intro x _ hpx
    refine Or.inl ?_
    have hx : x.uuid = d.uuid := by simpa using hpx
    simp only [updateInfoSource]
    by_cases htr : truthy d.uuid = true
    · rw [if_pos htr, hx]
    · rw [if_neg htr]
  · next hcase =>
    split
    · exact ⟨uuidOk_sources_append hok hcase SourceCls.remote, rfl⟩
    · split
      · exact ⟨uuidOk_sources_append hok hcase SourceCls.librespot, rfl⟩
      · split
        · exact ⟨uuidOk_sources_append hok hcase SourceCls.nullSource, rfl⟩
        · exact ⟨hok, rfl⟩

theorem addSink_inv (localUuid : String) (m : AudioManager) (d : SinkDescriptor)
    (hok : uuidOk (fun s : AudioSink => s.uuid) m.sinks = true) :
    uuidOk (fun s : AudioSink => s.uuid) (addSink localUuid m d).mgr.sinks = true ∧
    (addSink localUuid m d).mgr.sources = m.sources := by
  unfold addSink
  split
  · next s hcase =>
    refine ⟨?_, rfl⟩
    refine uuidOk_updateFirst hok ?_
    intro x _ hpx
    refine Or.inl ?_
    have htr : truthy d.uuid = true := by
      by_contra hc
      rw [if_neg hc] at hcase
      exact Option.noConfusion hcase
    have hx : x.uuid = d.uuid := by simpa using hpx
    simp only [updateInfoSink]
    rw [if_pos htr, hx]
  · next hcase =>
    have hprop : ∀ cls, uuidOk (fun s : AudioSink => s.uuid)
        (m.sinks ++ [mkSink localUuid cls d]) = true :=
      fun cls => uuidOk_sinks_append hok hcase cls
    split
    · split
      · next s hfound =>
        refine ⟨?_, rfl⟩
        refine uuidOk_updateFirst hok ?_
        intro x hx hpx
        by_cases htr : truthy d.uuid = true
        · rw [if_pos htr] at hcase
          refine Or.inr ?_
          intro z hz
          have hzne := List.find?_eq_none.1 hcase z hz
          simp only [updateInfoSink, if_pos htr]
          simpa using hzne
        · refine Or.inl ?_
          simp only [updateInfoSink]
          rw [if_neg htr]
      · next hfound =>
        unfold addSinkCreate
        split
        · exact ⟨hprop SinkCls.remote, rfl⟩
        · split
          · exact ⟨hprop SinkCls.rtaudio, rfl⟩
          · split
            · exact ⟨hprop SinkCls.nullSink, rfl⟩
            · exact ⟨hok, rfl⟩
    · unfold addSinkCreate
      split
      · exact ⟨hprop SinkCls.remote, rfl⟩
      · split
        · exact ⟨hprop SinkCls.rtaudio, rfl⟩
        · split
          · exact ⟨hprop SinkCls.nullSink, rfl⟩
          · exact ⟨hok, rfl⟩

theorem runCalls_inv (localUuid : String) :
    ∀ (calls : List AddCall) (m : AudioManager),
      uuidOk (fun s : AudioSource => s.uuid) m.sources = true →
      uuidOk (fun s : AudioSink => s.uuid) m.sinks = true →
      uuidOk (fun s : AudioSource => s.uuid)
        (calls.foldl (stepCall localUuid) m).sources = true ∧
      uuidOk (fun s : AudioSink => s.uuid)
        (calls.foldl (stepCall localUuid) m).sinks = true := by
  intro calls
  induction calls with
  | nil => intro m h1 h2; exact ⟨h1, h2⟩
  | cons c cs ih =>
    intro m h1 h2
    rw [List.foldl_cons]
    cases c with
    | src d =>
      obtain ⟨ha, hb⟩ := addSource_inv localUuid m d h1
      exact ih _ ha (by rw [show (stepCall localUuid m (AddCall.src d)).sinks
        = m.sinks from hb]; exact h2)
    | snk d =>
      obtain ⟨ha, hb⟩ := addSink_inv localUuid m d h2
      exact ih _ (by rw [show (stepCall localUuid m (AddCall.snk d)).sources
        = m.sources from hb]; exact h1) ha

theorem uuidOk_filter_le_one {g : α → Option String} {u : String} (hu : u ≠ "") :
    ∀ {l : List α}, uuidOk g l = true →
      (l.filter (fun x => g x == some u)).length ≤ 1 := by
  intro l
  induction l with
  | nil => intro _; simp
  | cons x xs ih =>
    intro hok
    rw [uuidOk_cons, Bool.and_eq_true] at hok
    obtain ⟨h1, h2⟩ := hok
    by_cases hx : (g x == some u) = true
    · rw [List.filter_cons, if_pos hx]
      have hgx : g x = some u := by simpa using hx
      have h1' : xs.all (fun y => !(g y == g x)) = true := by
        rw [Bool.or_eq_true] at h1
        rcases h1 with h1 | h1
        · rw [Bool.not_eq_true'] at h1
          rw [hgx] at h1
          rw [truthy_some hu] at h1
          exact absurd h1 (by simp)
        · exact h1
      have hnil : xs.filter (fun y => g y == some u) = [] := by
        refine filter_eq_nil_of_all_not ?_
        intro y hy
        rw [List.all_eq_true] at h1'
        have := h1' y hy
        rw [hgx] at this
        simpa using this
      rw [hnil]
      simp
    · rw [List.filter_cons, if_neg (by simpa using hx)]
      exact ih h2

theorem addSource_update_eq (localUuid : String) (m : AudioManager) (d : SourceDescriptor)
    (s : AudioSource) (htru : truthy d.uuid = true)
    (hfind : m.sources.find? (fun x => x.uuid == d.uuid) = some s) :
    addSource localUuid m d =
      { mgr := { sources := updateFirst (fun t => t.uuid == d.uuid)
                  (fun t => updateInfoSource t d) m.sources
                 sinks := m.sinks }
        persists := if (updateInfoSource s d).isLocal then [updateInfoSource s d] else []
        err := none } := by
  unfold addSource
  rw [if_pos htru, hfind]

theorem addSink_update_eq (localUuid : String) (m : AudioManager) (d : SinkDescriptor)
    (s : AudioSink) (htru : truthy d.uuid = true)
    (hfind : m.sinks.find? (fun x => x.uuid == d.uuid) = some s) :
    addSink localUuid m d =
      { mgr := { sources := m.sources
                 sinks := updateFirst (fun t => t.uuid == d.uuid)
                  (fun t => updateInfoSink t d) m.sinks }
        persists := if (updateInfoSink s d).isLocal then [updateInfoSink s d] else []
        err := none } := by
  unfold addSink
  rw [if_pos htru, hfind]

theorem addSink_device_eq (localUuid : String) (m : AudioManager) (d : SinkDescriptor)
    (s : AudioSink)
    (hnone : (if truthy d.uuid then m.sinks.find? (fun t => t.uuid == d.uuid) else none) = none)
    (hcond : (d.type == "rtaudio" && d.peerUuid == some localUuid) = true)
    (hfind : m.sinks.find? (fun t => t.cls == SinkCls.rtaudio && t.deviceName == d.deviceName)
      = some s) :
    addSink localUuid m d =
      { mgr := { sources := m.sources
                 sinks := updateFirst
                  (fun t => t.cls == SinkCls.rtaudio && t.deviceName == d.deviceName)
                  (fun t => updateInfoSink t d) m.sinks }
        persists := if (updateInfoSink s d).isLocal then [updateInfoSink s d] else []
        err := none } := by
  unfold addSink
  rw [hnone, if_pos hcond, hfind]

theorem addSource_error_eq (localUuid : String) (m : AudioManager) (d : SourceDescriptor)
    (hnone : (if truthy d.uuid then m.sources.find? (fun t => t.uuid == d.uuid) else none) = none)
    (hloc : isLocalPeerUuid localUuid d.peerUuid = true)
    (ht1 : ¬(d.type = "librespot")) (ht2 : ¬(d.type = "null")) :
    addSource localUuid m d =
      { mgr := m, persists := [], err := some ("Unknown source type " ++ d.type) } := by
  unfold addSource
  rw [hnone, if_neg (by simp [hloc]), if_neg (by simpa using ht1), if_neg (by simpa using ht2)]

theorem addSink_error_eq (localUuid : String) (m : AudioManager) (d : SinkDescriptor)
    (hnone : (if truthy d.uuid then m.sinks.find? (fun t => t.uuid == d.uuid) else none) = none)
    (hloc : isLocalPeerUuid localUuid d.peerUuid = true)
    (ht3 : ¬(d.type = "rtaudio")) (ht4 : ¬(d.type = "null")) :
    addSink localUuid m d =
      { mgr := m, persists := [], err := some ("Unknown sink type " ++ d.type) } := by
  unfold addSink
  rw [hnone, if_neg (by simp [ht3])]
  unfold addSinkCreate
  rw [if_neg (by simp [hloc]), if_neg (by simpa using ht3), if_neg (by simpa using ht4)]

/-! ### Claim theorems -/

/-- C1: a failure of the send to any single peer does not prevent the send
from being attempted and completed for every other peer not in the
exclusion list: in `broadcast` every non-excluded peer's send is invoked
and settles with its own outcome, regardless of any other peer's send
rejecting. -/
theorem broadcast_failure_isolation (send : String → Bool) (reg : List Peer)
    (message : ControllerMessage) (ignorePeerByUuid : List String) (p q : Peer)
    (hp : p ∈ reg) (hpi : ignorePeerByUuid.contains p.uuid = false)
    (hq : q ∈ reg) (hqi : ignorePeerByUuid.contains q.uuid = false)
    (hfail : send q.uuid = false) :
    ∃ r, r ∈ (broadcast send reg message ignorePeerByUuid).records ∧
      r.uuid = p.uuid ∧ r.attempted = true ∧ r.ok = send p.uuid := by
  refine ⟨{ uuid := p.uuid, attempted := true, ok := send p.uuid }, ?_, rfl, rfl, rfl⟩
  unfold broadcast
  rw [List.mem_map]
  exact ⟨p, hp, by rw [if_neg (by simpa using hpi)]⟩

/-- C1 witness: a two-peer registry where the send to peer B rejects; the
send to peer A is still attempted and completes with its own outcome. -/
theorem broadcast_failure_isolation_witness :
    (fun u => u != "B") "B" = false ∧
    ∃ r, r ∈ (broadcast (fun u => u != "B")
        [⟨"A", "a", "h1", "i1", PeerKind.webrtc, PeerState.connected⟩,
         ⟨"B", "b", "h2", "i2", PeerKind.webrtc, PeerState.connected⟩]
        ⟨"peerDiscovery"⟩ []).records ∧
      r.uuid = "A" ∧ r.attempted = true ∧ r.ok = (fun u => u != "B") "A" := by
  refine ⟨by decide, ?_⟩
  exact broadcast_failure_isolation (fun u => u != "B")
    [⟨"A", "a", "h1", "i1", PeerKind.webrtc, PeerState.connected⟩,
     ⟨"B", "b", "h2", "i2", PeerKind.webrtc, PeerState.connected⟩]
    ⟨"peerDiscovery"⟩ []
    ⟨"A", "a", "h1", "i1", PeerKind.webrtc, PeerState.connected⟩
    ⟨"B", "b", "h2", "i2", PeerKind.webrtc, PeerState.connected⟩
    (by simp) rfl (by simp) rfl (by decide)

/-- C7: an inbound connection request whose version differs from the local
protocol version is rejected with HTTP 400, the message names both
versions, and the registry is untouched (no peer installed, no effects). -/
theorem connect_version_mismatch_rejected (lp : Peer) (localVersion : String)
    (transport : String → Except String String) (reg : List Peer) (rq : ConnectRequest)
    (hv : rq.version ≠ localVersion) :
    connectWebrtcPeer lp localVersion transport reg rq =
      ⟨reg, [], .error ⟨400, versionMismatchMsg localVersion rq.version⟩⟩ ∧
    List.IsInfix localVersion.data (versionMismatchMsg localVersion rq.version).data ∧
    List.IsInfix rq.version.data (versionMismatchMsg localVersion rq.version).data := by
  refine ⟨?_, ?_, ?_⟩
  · unfold connectWebrtcPeer
    rw [if_pos hv]
  · refine ⟨("Different version of Soundsync, please check each client is on the same version.\nOwn version: ").data,
      ("\nOther peer version: " ++ rq.version).data, ?_⟩
    simp [versionMismatchMsg, String.data_append, List.append_assoc]
  · refine ⟨("Different version of Soundsync, please check each client is on the same version.\nOwn version: "
      ++ localVersion ++ "\nOther peer version: ").data, [], ?_⟩
    simp [versionMismatchMsg, String.data_append, List.append_assoc]

/-- C7 witness: a request at version 2.0 against local version 1.9 is
rejected with status 400, both versions appear in the message, and the
registry still holds only the local peer. -/
theorem connect_version_mismatch_rejected_witness :
    ("2.0" : String) ≠ "1.9" ∧
    connectWebrtcPeer ⟨"L", "local", "self", "i0", PeerKind.localPeer, PeerState.connected⟩
        "1.9" (fun _ => Except.ok "answer")
        (freshRegistry ⟨"L", "local", "self", "i0", PeerKind.localPeer, PeerState.connected⟩)
        ⟨"A", "A", "offer", "2.0", "i1", "1.2.3.4"⟩ =
      ⟨freshRegistry ⟨"L", "local", "self", "i0", PeerKind.localPeer, PeerState.connected⟩,
        [], .error ⟨400, versionMismatchMsg "1.9" "2.0"⟩⟩ ∧
    List.IsInfix ("1.9" : String).data (versionMismatchMsg "1.9" "2.0").data ∧
    List.IsInfix ("2.0" : String).data (versionMismatchMsg "1.9" "2.0").data := by
  refine ⟨by decide, ?_⟩
  exact connect_version_mismatch_rejected
    ⟨"L", "local", "self", "i0", PeerKind.localPeer, PeerState.connected⟩ "1.9"
    (fun _ => Except.ok "answer")
    (freshRegistry ⟨"L", "local", "self", "i0", PeerKind.localPeer, PeerState.connected⟩)
    ⟨"A", "A", "offer", "2.0", "i1", "1.2.3.4"⟩ (by decide)

/-- C2 counterexample: the claim quantifies over every existing registered
Peer, but the eviction guard of line 46 also requires
`existingPeer instanceof WebrtcPeer`.  An inbound request whose uuid is
the local peer's own uuid and whose instanceUuid differs from the local
peer's matches an existing registered Peer with a different instanceUuid,
yet no disconnect is performed before the new peer is installed. -/
theorem connect_existing_local_uuid_not_disconnected :
    lookupPeer (freshRegistry ⟨"L", "local", "self", "i0", PeerKind.localPeer, PeerState.connected⟩) "L"
      = some ⟨"L", "local", "self", "i0", PeerKind.localPeer, PeerState.connected⟩ ∧
    ¬(("i0" : String) = "i1") ∧
    (connectWebrtcPeer ⟨"L", "local", "self", "i0", PeerKind.localPeer, PeerState.connected⟩ "v1"
        (fun _ => Except.ok "answer")
        (freshRegistry ⟨"L", "local", "self", "i0", PeerKind.localPeer, PeerState.connected⟩)
        ⟨"A", "L", "offer", "v1", "i1", "1.2.3.4"⟩).trace.filter isDisconnect = [] := by
  refine ⟨rfl, by decide, ?_⟩
  decide

/-- C2 (amended): when the existing registered Peer with the request's uuid
is a remote (WebrtcPeer) session whose instanceUuid differs from the
request's, handling the request disconnects that session before installing
the new Peer, and the registry afterwards holds exactly one Peer for that
uuid — the newly installed one — whatever the transport handshake does. -/
theorem connect_evicts_stale_webrtc (lp : Peer) (localVersion : String)
    (transport : String → Except String String) (reg : List Peer) (rq : ConnectRequest)
    (p : Peer) (hwf : peersWF reg = true) (hv : rq.version = localVersion)
    (hfind : lookupPeer reg rq.uuid = some p) (hk : p.kind = PeerKind.webrtc)
    (hi : p.instanceUuid ≠ rq.instanceUuid) :
    (connectWebrtcPeer lp localVersion transport reg rq).trace =
      [PeerAction.disconnectPeer p, PeerAction.installPeer (inboundPeer rq)] ∧
    (connectWebrtcPeer lp localVersion transport reg rq).reg.filter
      (fun q => q.uuid == rq.uuid) = [inboundPeer rq] := by
  have hfilter : (insertPeer reg (inboundPeer rq)).filter
      (fun q => q.uuid == rq.uuid) = [inboundPeer rq] := by
    exact insertPeer_filter_self hwf
      (show reg.any (fun q => q.uuid == (inboundPeer rq).uuid) = true from any_of_lookup hfind)
  unfold connectWebrtcPeer
  rw [if_neg (by simp [hv])]
  simp only [hfind]
  rw [if_pos ⟨hk, hi⟩]
  cases htr : transport rq.description with
  | ok desc => exact ⟨rfl, hfilter⟩
  | error e => exact ⟨rfl, hfilter⟩

/-- C2 witness: a registry holding the local peer and a stale remote
session for uuid A with instanceUuid i1; a reconnect of A with
instanceUuid i2 disconnects the stale session first and leaves exactly the
new peer under uuid A. -/
theorem connect_evicts_stale_webrtc_witness :
    peersWF [⟨"L", "local", "self", "i0", PeerKind.localPeer, PeerState.connected⟩,
      ⟨"A", "A", "1.2.3.4", "i1", PeerKind.webrtc, PeerState.connected⟩] = true ∧
    lookupPeer [⟨"L", "local", "self", "i0", PeerKind.localPeer, PeerState.connected⟩,
      ⟨"A", "A", "1.2.3.4", "i1", PeerKind.webrtc, PeerState.connected⟩] "A"
      = some ⟨"A", "A", "1.2.3.4", "i1", PeerKind.webrtc, PeerState.connected⟩ ∧
    ¬(("i1" : String) = "i2") ∧
    (connectWebrtcPeer ⟨"L", "local", "self", "i0", PeerKind.localPeer, PeerState.connected⟩ "v1"
        (fun _ => Except.ok "answer")
        [⟨"L", "local", "self", "i0", PeerKind.localPeer, PeerState.connected⟩,
         ⟨"A", "A", "1.2.3.4", "i1", PeerKind.webrtc, PeerState.connected⟩]
        ⟨"A", "A", "offer", "v1", "i2", "1.2.3.4"⟩).trace =
      [PeerAction.disconnectPeer ⟨"A", "A", "1.2.3.4", "i1", PeerKind.webrtc, PeerState.connected⟩,
       PeerAction.installPeer (inboundPeer ⟨"A", "A", "offer", "v1", "i2", "1.2.3.4"⟩)] ∧
    (connectWebrtcPeer ⟨"L", "local", "self", "i0", PeerKind.localPeer, PeerState.connected⟩ "v1"
        (fun _ => Except.ok "answer")
        [⟨"L", "local", "self", "i0", PeerKind.localPeer, PeerState.connected⟩,
         ⟨"A", "A", "1.2.3.4", "i1", PeerKind.webrtc, PeerState.connected⟩]
        ⟨"A", "A", "offer", "v1", "i2", "1.2.3.4"⟩).reg.filter
      (fun q => q.uuid == "A") = [inboundPeer ⟨"A", "A", "offer", "v1", "i2", "1.2.3.4"⟩] := by
  refine ⟨by decide, by decide, by decide, ?_⟩
  exact connect_evicts_stale_webrtc
    ⟨"L", "local", "self", "i0", PeerKind.localPeer, PeerState.connected⟩ "v1"
    (fun _ => Except.ok "answer")
    [⟨"L", "local", "self", "i0", PeerKind.localPeer, PeerState.connected⟩,
     ⟨"A", "A", "1.2.3.4", "i1", PeerKind.webrtc, PeerState.connected⟩]
    ⟨"A", "A", "offer", "v1", "i2", "1.2.3.4"⟩
    ⟨"A", "A", "1.2.3.4", "i1", PeerKind.webrtc, PeerState.connected⟩
    (by decide) rfl (by decide) rfl (by decide)

/-- C8: removing an unknown uuid is a no-op that leaves the collection
unchanged (the embedding is a total function, mirroring that the
TypeScript method returns after a log instead of raising), and removing a
present uuid drops that entity from its collection while the other
collection is untouched. -/
theorem remove_unknown_noop_known_removes (m : AudioManager) (u : String) :
    ((∀ s, s ∈ m.sources → ¬(s.uuid = some u)) → removeSource m u = m) ∧
    ((∃ s, s ∈ m.sources ∧ s.uuid = some u) →
      (removeSource m u).sources = m.sources.filter (fun s => !(s.uuid == some u)) ∧
      (removeSource m u).sinks = m.sinks ∧
      ∀ s, s ∈ (removeSource m u).sources → ¬(s.uuid = some u)) ∧
    ((∀ s, s ∈ m.sinks → ¬(s.uuid = some u)) → removeSink m u = m) ∧
    ((∃ s, s ∈ m.sinks ∧ s.uuid = some u) →
      (removeSink m u).sinks = m.sinks.filter (fun s => !(s.uuid == some u)) ∧
      (removeSink m u).sources = m.sources ∧
      ∀ s, s ∈ (removeSink m u).sinks → ¬(s.uuid = some u)) := by
  refine ⟨?_, ?_, ?_, ?_⟩
  · intro h
    unfold removeSource
    rw [List.find?_eq_none.2 (fun x hx => by simpa using h x hx)]
  · rintro ⟨s, hs, hsu⟩
    have hfind : ∃ t, m.sources.find? (fun x => x.uuid == some u) = some t := by
      rw [← Option.isSome_iff_exists, List.find?_isSome]
      exact ⟨s, hs, by simpa using hsu⟩
    obtain ⟨t, ht⟩ := hfind
    unfold removeSource
    rw [ht]
    refine ⟨rfl, rfl, ?_⟩
    intro x hx
    have := (List.mem_filter.1 hx).2
    simpa using this
  · intro h
    unfold removeSink
    rw [List.find?_eq_none.2 (fun x hx => by simpa using h x hx)]
  · rintro ⟨s, hs, hsu⟩
    have hfind : ∃ t, m.sinks.find? (fun x => x.uuid == some u) = some t := by
      rw [← Option.isSome_iff_exists, List.find?_isSome]
      exact ⟨s, hs, by simpa using hsu⟩
    obtain ⟨t, ht⟩ := hfind
    unfold removeSink
    rw [ht]
    refine ⟨rfl, rfl, ?_⟩
    intro x hx
    have := (List.mem_filter.1 hx).2
    simpa using this

/-- C8 witness: removing an unknown uuid from a one-source manager leaves
it unchanged; removing the present uuid drops exactly that source. -/
theorem remove_unknown_noop_known_removes_witness :
    removeSource ⟨[⟨SourceCls.nullSource, "null", "N", some "s1", none, true⟩], []⟩ "zz"
      = ⟨[⟨SourceCls.nullSource, "null", "N", some "s1", none, true⟩], []⟩ ∧
    (removeSource ⟨[⟨SourceCls.nullSource, "null", "N", some "s1", none, true⟩], []⟩ "s1").sources
      = [] := by
  constructor
  · exact (remove_unknown_noop_known_removes
      ⟨[⟨SourceCls.nullSource, "null", "N", some "s1", none, true⟩], []⟩ "zz").1
      (by decide)
  · have h := ((remove_unknown_noop_known_removes
      ⟨[⟨SourceCls.nullSource, "null", "N", some "s1", none, true⟩], []⟩ "s1").2.1
      ⟨⟨SourceCls.nullSource, "null", "N", some "s1", none, true⟩, by decide, by decide⟩).1
    rw [h]
    rfl

/-- C10: configuration persistence is triggered only by local entities:
every `updateConfigArrayItem` invocation an `addSource` or `addSink` call
produces is for an entity whose `local` flag is true, so a call that
creates or updates a remote entity produces none. -/
theorem config_persist_only_local (localUuid : String) (m : AudioManager)
    (ds : SourceDescriptor) (dk : SinkDescriptor) :
    (addSource localUuid m ds).persists.all (fun s => s.isLocal) = true ∧
    (addSink localUuid m dk).persists.all (fun s => s.isLocal) = true := by
  constructor
  · unfold addSource
    split
    · exact all_isLocal_guard_source
    · split
      · exact all_isLocal_guard_source
      · split
        · exact all_isLocal_guard_source
        · split
          · exact all_isLocal_guard_source
          · rfl
  · unfold addSink
    split
    · exact all_isLocal_guard_sink
    · split
      · split
        · exact all_isLocal_guard_sink
        · exact addSinkCreate_persists_local localUuid m dk
      · exact addSinkCreate_persists_local localUuid m dk

/-- C3: for every finite sequence of `addSource` / `addSink` calls starting
from the empty manager, the sources collection never holds two sources
with the same non-empty uuid, and neither does the sinks collection
(sources and sinks being separate namespaces). -/
theorem addCalls_no_duplicate_nonempty_uuid (localUuid : String) (calls : List AddCall)
    (u : String) (hu : u ≠ "") :
    ((runCalls localUuid calls).sources.filter (fun s => s.uuid == some u)).length ≤ 1 ∧
    ((runCalls localUuid calls).sinks.filter (fun s => s.uuid == some u)).length ≤ 1 := by
  obtain ⟨h1, h2⟩ := runCalls_inv localUuid calls emptyManager rfl rfl
  exact ⟨uuidOk_filter_le_one hu h1, uuidOk_filter_le_one hu h2⟩

/-- C3 witness: a sequence that adds the same source uuid twice and reuses
the uuid for a sink still yields at most one source and one sink per
non-empty uuid. -/
theorem addCalls_no_duplicate_nonempty_uuid_witness :
    ("s1" : String) ≠ "" ∧
    ((runCalls "L" [AddCall.src ⟨"null", "a", some "s1", none⟩,
        AddCall.src ⟨"librespot", "b", some "s1", none⟩,
        AddCall.snk ⟨"null", "c", none, some "s1", none⟩,
        AddCall.snk ⟨"rtaudio", "d", some "dev", some "s1", some "L"⟩]).sources.filter
      (fun s => s.uuid == some "s1")).length ≤ 1 ∧
    ((runCalls "L" [AddCall.src ⟨"null", "a", some "s1", none⟩,
        AddCall.src ⟨"librespot", "b", some "s1", none⟩,
        AddCall.snk ⟨"null", "c", none, some "s1", none⟩,
        AddCall.snk ⟨"rtaudio", "d", some "dev", some "s1", some "L"⟩]).sinks.filter
      (fun s => s.uuid == some "s1")).length ≤ 1 := by
  refine ⟨by decide, ?_⟩
  exact addCalls_no_duplicate_nonempty_uuid "L"
    [AddCall.src ⟨"null", "a", some "s1", none⟩,
     AddCall.src ⟨"librespot", "b", some "s1", none⟩,
     AddCall.snk ⟨"null", "c", none, some "s1", none⟩,
     AddCall.snk ⟨"rtaudio", "d", some "dev", some "s1", some "L"⟩]
    "s1" (by decide)

/-- C4: an `addSource` (resp. `addSink`) whose descriptor carries the uuid
of an entity already in the corresponding collection does not append a new
entity: it delegates to the existing entity's `updateInfo`, leaving exactly
one entity with that uuid, carrying the latest descriptor's fields, and
does not touch the other collection. -/
theorem add_existing_uuid_updates_in_place
    (localUuid : String) (m : AudioManager)
    (dS : SourceDescriptor) (u : String) (s : AudioSource)
    (hokS : uuidOk (fun x : AudioSource => x.uuid) m.sources = true)
    (huS : dS.uuid = some u) (hneS : u ≠ "")
    (hfindS : m.sources.find? (fun x => x.uuid == some u) = some s)
    (dK : SinkDescriptor) (v : String) (k : AudioSink)
    (hokK : uuidOk (fun x : AudioSink => x.uuid) m.sinks = true)
    (huK : dK.uuid = some v) (hneK : v ≠ "")
    (hfindK : m.sinks.find? (fun x => x.uuid == some v) = some k) :
    (addSource localUuid m dS).mgr.sources.length = m.sources.length ∧
    (addSource localUuid m dS).mgr.sources.filter (fun x => x.uuid == some u)
      = [updateInfoSource s dS] ∧
    (updateInfoSource s dS).name = dS.name ∧
    (addSource localUuid m dS).mgr.sinks = m.sinks ∧
    (addSource localUuid m dS).err = none ∧
    (addSink localUuid m dK).mgr.sinks.length = m.sinks.length ∧
    (addSink localUuid m dK).mgr.sinks.filter (fun x => x.uuid == some v)
      = [updateInfoSink k dK] ∧
    (updateInfoSink k dK).name = dK.name ∧
    (addSink localUuid m dK).mgr.sources = m.sources ∧
    (addSink localUuid m dK).err = none := by
  have htruS : truthy dS.uuid = true := by rw [huS]; exact truthy_some hneS
  have htruK : truthy dK.uuid = true := by rw [huK]; exact truthy_some hneK
  have hredS := addSource_update_eq localUuid m dS s htruS (by rw [huS]; exact hfindS)
  have hredK := addSink_update_eq localUuid m dK k htruK (by rw [huK]; exact hfindK)
  rw [hredS, hredK]
  refine ⟨length_updateFirst _, ?_, rfl, rfl, rfl, length_updateFirst _, ?_, rfl, rfl, rfl⟩
  · rw [huS]
    refine filter_updateFirst_single hneS ?_ hokS hfindS
    intro x hx
    simp [updateInfoSource, huS, truthy_some hneS]
  · rw [huK]
    refine filter_updateFirst_single hneK ?_ hokK hfindK
    intro x hx
    simp [updateInfoSink, huK, truthy_some hneK]

/-- C4 witness: adding uuid s1 (source) and k1 (sink) a second time with a
different name updates in place, leaving one entity per uuid with the new
name. -/
theorem add_existing_uuid_updates_in_place_witness :
    uuidOk (fun x : AudioSource => x.uuid)
      [⟨SourceCls.nullSource, "null", "old", some "s1", none, true⟩] = true ∧
    (addSource "L" ⟨[⟨SourceCls.nullSource, "null", "old", some "s1", none, true⟩],
        [⟨SinkCls.nullSink, "null", "old", none, some "k1", none, true⟩]⟩
      ⟨"null", "new", some "s1", none⟩).mgr.sources.filter
        (fun x => x.uuid == some "s1")
      = [updateInfoSource ⟨SourceCls.nullSource, "null", "old", some "s1", none, true⟩
          ⟨"null", "new", some "s1", none⟩] ∧
    (updateInfoSource ⟨SourceCls.nullSource, "null", "old", some "s1", none, true⟩
      ⟨"null", "new", some "s1", none⟩).name = "new" ∧
    (addSink "L" ⟨[⟨SourceCls.nullSource, "null", "old", some "s1", none, true⟩],
        [⟨SinkCls.nullSink, "null", "old", none, some "k1", none, true⟩]⟩
      ⟨"null", "new", none, some "k1", none⟩).mgr.sinks.filter
        (fun x => x.uuid == some "k1")
      = [updateInfoSink ⟨SinkCls.nullSink, "null", "old", none, some "k1", none, true⟩
          ⟨"null", "new", none, some "k1", none⟩] := by
  have h := add_existing_uuid_updates_in_place "L"
    ⟨[⟨SourceCls.nullSource, "null", "old", some "s1", none, true⟩],
     [⟨SinkCls.nullSink, "null", "old", none, some "k1", none, true⟩]⟩
    ⟨"null", "new", some "s1", none⟩ "s1"
    ⟨SourceCls.nullSource, "null", "old", some "s1", none, true⟩
    (by decide) rfl (by decide) (by decide)
    ⟨"null", "new", none, some "k1", none⟩ "k1"
    ⟨SinkCls.nullSink, "null", "old", none, some "k1", none, true⟩
    (by decide) rfl (by decide) (by decide)
  exact ⟨by decide, h.2.1, h.2.2.1.trans rfl, h.2.2.2.2.2.2.1⟩

/-- C5 counterexample: the claim covers every *local* device-backed
descriptor, but the reconciliation guard of line 106 requires
`sinkDescriptor.peerUuid === getLocalPeer().uuid`, so a local rtaudio
descriptor with *no* peerUuid (local by the classification of line 119)
and no uuid, whose device name matches an existing local device-backed
sink, skips the reconciliation and appends a second sink with the same
device name. -/
theorem addSink_local_without_peerUuid_duplicates :
    isLocalPeerUuid "L" (none : Option String) = true ∧
    ((addSink "L"
        (addSink "L" emptyManager ⟨"rtaudio", "Speakers", some "Speakers", none, some "L"⟩).mgr
        ⟨"rtaudio", "Speakers", some "Speakers", none, none⟩).mgr.sinks.map
      (fun s => s.deviceName)) = [some "Speakers", some "Speakers"] := by
  exact ⟨by decide, by decide⟩

/-- C5 (amended): for a device-backed (rtaudio) sink descriptor whose
`peerUuid` equals the local peer uuid and whose uuid matches no existing
sink, if an existing device-backed sink has the same device name, `addSink`
updates that sink in place — same collection length, no append, no error —
instead of creating a second sink. -/
theorem addSink_deviceName_reconciles (localUuid : String) (m : AudioManager)
    (d : SinkDescriptor) (s : AudioSink)
    (htype : d.type = "rtaudio") (hpeer : d.peerUuid = some localUuid)
    (hnouuid : (if truthy d.uuid then m.sinks.find? (fun t => t.uuid == d.uuid) else none) = none)
    (hfind : m.sinks.find? (fun t => t.cls == SinkCls.rtaudio && t.deviceName == d.deviceName)
      = some s) :
    (addSink localUuid m d).mgr.sinks =
      updateFirst (fun t => t.cls == SinkCls.rtaudio && t.deviceName == d.deviceName)
        (fun t => updateInfoSink t d) m.sinks ∧
    (addSink localUuid m d).mgr.sinks.length = m.sinks.length ∧
    (updateInfoSink s d).name = d.name ∧
    (addSink localUuid m d).err = none := by
  have hred := addSink_device_eq localUuid m d s hnouuid (by simp [htype, hpeer]) hfind
  rw [hred]
  exact ⟨rfl, length_updateFirst _, rfl, rfl⟩

/-- C5 witness: an autodetected local rtaudio sink followed by a descriptor
carrying `peerUuid = local`, the same device name and no uuid: the existing
sink is updated in place and the collection keeps length one. -/
theorem addSink_deviceName_reconciles_witness :
    (addSink "L"
        (addSink "L" emptyManager ⟨"rtaudio", "Speakers", some "Speakers", none, some "L"⟩).mgr
        ⟨"rtaudio", "Renamed", some "Speakers", none, some "L"⟩).mgr.sinks.length
      = (addSink "L" emptyManager
          ⟨"rtaudio", "Speakers", some "Speakers", none, some "L"⟩).mgr.sinks.length ∧
    (addSink "L"
        (addSink "L" emptyManager ⟨"rtaudio", "Speakers", some "Speakers", none, some "L"⟩).mgr
        ⟨"rtaudio", "Renamed", some "Speakers", none, some "L"⟩).err = none := by
  have h := addSink_deviceName_reconciles "L"
    (addSink "L" emptyManager ⟨"rtaudio", "Speakers", some "Speakers", none, some "L"⟩).mgr
    ⟨"rtaudio", "Renamed", some "Speakers", none, some "L"⟩
    (mkSink "L" SinkCls.rtaudio ⟨"rtaudio", "Speakers", some "Speakers", none, some "L"⟩)
    rfl rfl (by decide) (by decide)
  exact ⟨h.2.1, h.2.2.2⟩

/-- C9 counterexample: the claim covers every local descriptor with an
unrecognized type tag, but the uuid check of line 63 (resp. 102) runs
first: a local descriptor with type "bogus" whose uuid matches an existing
source is routed to `updateInfo` and the call returns without throwing. -/
theorem addSource_unknown_type_with_matching_uuid_no_error :
    isLocalPeerUuid "L" (none : Option String) = true ∧
    ¬(("bogus" : String) = "librespot") ∧ ¬(("bogus" : String) = "null") ∧
    (addSource "L" (addSource "L" emptyManager ⟨"null", "N", some "s1", none⟩).mgr
      ⟨"bogus", "X", some "s1", none⟩).err = none := by
  exact ⟨by decide, by decide, by decide, by decide⟩

/-- C9 (amended): for a local descriptor whose type tag is unrecognized and
whose uuid matches no existing entity, `addSource` (resp. `addSink`) throws
an unknown-entity-type error and leaves both collections (and the persisted
config) unchanged. -/
theorem add_unknown_type_throws_no_mutation (localUuid : String) (m : AudioManager)
    (dS : SourceDescriptor) (dK : SinkDescriptor)
    (hlocS : isLocalPeerUuid localUuid dS.peerUuid = true)
    (ht1 : ¬(dS.type = "librespot")) (ht2 : ¬(dS.type = "null"))
    (hnoS : (if truthy dS.uuid then m.sources.find? (fun t => t.uuid == dS.uuid) else none) = none)
    (hlocK : isLocalPeerUuid localUuid dK.peerUuid = true)
    (ht3 : ¬(dK.type = "rtaudio")) (ht4 : ¬(dK.type = "null"))
    (hnoK : (if truthy dK.uuid then m.sinks.find? (fun t => t.uuid == dK.uuid) else none) = none) :
    (addSource localUuid m dS).err = some ("Unknown source type " ++ dS.type) ∧
    (addSource localUuid m dS).mgr = m ∧
    (addSource localUuid m dS).persists = [] ∧
    (addSink localUuid m dK).err = some ("Unknown sink type " ++ dK.type) ∧
    (addSink localUuid m dK).mgr = m ∧
    (addSink localUuid m dK).persists = [] := by
  have hS := addSource_error_eq localUuid m dS hnoS hlocS ht1 ht2
  have hK := addSink_error_eq localUuid m dK hnoK hlocK ht3 ht4
  rw [hS, hK]
  exact ⟨rfl, rfl, rfl, rfl, rfl, rfl⟩

/-- C9 witness: fresh local descriptors of type "bogus" with unmatched
uuids throw the unknown-type errors and leave a one-source, one-sink
manager unchanged. -/
theorem add_unknown_type_throws_no_mutation_witness :
    (addSource "L" ⟨[⟨SourceCls.nullSource, "null", "N", some "s1", none, true⟩],
        [⟨SinkCls.nullSink, "null", "K", none, some "k1", none, true⟩]⟩
      ⟨"bogus", "X", some "s2", none⟩).err = some "Unknown source type bogus" ∧
    (addSource "L" ⟨[⟨SourceCls.nullSource, "null", "N", some "s1", none, true⟩],
        [⟨SinkCls.nullSink, "null", "K", none, some "k1", none, true⟩]⟩
      ⟨"bogus", "X", some "s2", none⟩).mgr =
      ⟨[⟨SourceCls.nullSource, "null", "N", some "s1", none, true⟩],
       [⟨SinkCls.nullSink, "null", "K", none, some "k1", none, true⟩]⟩ ∧
    (addSink "L" ⟨[⟨SourceCls.nullSource, "null", "N", some "s1", none, true⟩],
        [⟨SinkCls.nullSink, "null", "K", none, some "k1", none, true⟩]⟩
      ⟨"bogus", "X", none, some "k2", none⟩).err = some "Unknown sink type bogus" := by
  have h := add_unknown_type_throws_no_mutation "L"
    ⟨[⟨SourceCls.nullSource, "null", "N", some "s1", none, true⟩],
     [⟨SinkCls.nullSink, "null", "K", none, some "k1", none, true⟩]⟩
    ⟨"bogus", "X", some "s2", none⟩ ⟨"bogus", "X", none, some "k2", none⟩
    (by decide) (by decide) (by decide) (by decide)
    (by decide) (by decide) (by decide) (by decide)
  exact ⟨h.1, h.2.1, h.2.2.2.1⟩

/-- C6: immediately after construction the registry maps the local peer's
own uuid to the local Peer, and no registry operation — inbound connection
handling, `joinPeerWithHttpApi`, `getPeerByUuid`, `broadcast`,
`onControllerMessage` — ever removes the entry under the local peer's
uuid (the registry never deletes entries; inserts only replace or
append). -/
theorem local_peer_entry_never_removed (lp : Peer) :
    lookupPeer (freshRegistry lp) lp.uuid = some lp ∧
    (∀ localVersion transport reg rq, hasUuid reg lp.uuid = true →
      hasUuid (connectWebrtcPeer lp localVersion transport reg rq).reg lp.uuid = true) ∧
    (∀ reg host uuid, hasUuid reg lp.uuid = true →
      hasUuid (joinPeerWithHttpApi reg host uuid) lp.uuid = true) ∧
    (∀ reg u, hasUuid reg lp.uuid = true →
      hasUuid (getPeerByUuid reg u).1 lp.uuid = true) ∧
    (∀ send reg msg ignore, (broadcast send reg msg ignore).reg = reg) ∧
    (∀ reg, onControllerMessage reg = reg) := by
  refine ⟨?_, ?_, ?_, ?_, fun _ _ _ _ => rfl, fun _ => rfl⟩
  · unfold freshRegistry lookupPeer
    exact find?_cons_true _ lp [] (by simp)
  · intro localVersion transport reg rq h
    unfold connectWebrtcPeer
    by_cases hv : rq.version ≠ localVersion
    · rw [if_pos hv]
      exact h
    · rw [if_neg hv]
      cases htr : transport rq.description with
      | ok desc =>
        simp only [htr]
        exact hasUuid_insertPeer _ h
      | error e =>
        simp only [htr]
        exact hasUuid_insertPeer _ h
  · intro reg host uuid h
    unfold joinPeerWithHttpApi
    exact hasUuid_insertPeer _ h
  · intro reg u h
    unfold getPeerByUuid
    cases hl : lookupPeer reg u with
    | some p => exact h
    | none => exact hasUuid_insertPeer _ h

/-- C6 witness: with the concrete local peer L the fresh registry maps L to
itself, and an inbound connection, an HTTP join and a lazy lookup all keep
the entry under L present. -/
theorem local_peer_entry_never_removed_witness :
    lookupPeer (freshRegistry ⟨"L", "local", "self", "i0", PeerKind.localPeer, PeerState.connected⟩) "L"
      = some ⟨"L", "local", "self", "i0", PeerKind.localPeer, PeerState.connected⟩ ∧
    hasUuid (connectWebrtcPeer
        ⟨"L", "local", "self", "i0", PeerKind.localPeer, PeerState.connected⟩ "v1"
        (fun _ => Except.ok "answer")
        (freshRegistry ⟨"L", "local", "self", "i0", PeerKind.localPeer, PeerState.connected⟩)
        ⟨"A", "L", "offer", "v1", "i1", "1.2.3.4"⟩).reg "L" = true ∧
    hasUuid (joinPeerWithHttpApi
        (freshRegistry ⟨"L", "local", "self", "i0", PeerKind.localPeer, PeerState.connected⟩)
        "otherhost" none) "L" = true ∧
    hasUuid (getPeerByUuid
        (freshRegistry ⟨"L", "local", "self", "i0", PeerKind.localPeer, PeerState.connected⟩)
        "B").1 "L" = true := by
  have h := local_peer_entry_never_removed
    ⟨"L", "local", "self", "i0", PeerKind.localPeer, PeerState.connected⟩
  exact ⟨h.1,
    h.2.1 "v1" (fun _ => Except.ok "answer")
      (freshRegistry ⟨"L", "local", "self", "i0", PeerKind.localPeer, PeerState.connected⟩)
      ⟨"A", "L", "offer", "v1", "i1", "1.2.3.4"⟩ (by decide),
    h.2.2.1 (freshRegistry ⟨"L", "local", "self", "i0", PeerKind.localPeer, PeerState.connected⟩)
      "otherhost" none (by decide),
    h.2.2.2.1 (freshRegistry ⟨"L", "local", "self", "i0", PeerKind.localPeer, PeerState.connected⟩)
      "B" (by decide)⟩

end SoundSync
